import Mathlib

/-!
Shallow embedding of the data-extraction core of the Tracker.gg Valorant
scraper (src/puppeteer/scrape_tracker.js and its parameterized variant
src/unnamed/part_000; the two copies of the `page.evaluate` body are
functionally identical, the only difference being where the target Riot ID
comes from).  The DOM snapshot is modelled as a structured `Document`
value; the JavaScript string/number primitives the code relies on
(`trim`, `parseInt`, `parseFloat`, `||`-defaulting, `?.` chains) are
modelled explicitly.  Machine floats are abstracted to an exact
`JsNum` value (`NaN`, signed infinity, or a rational); Lean `Char`
stands for a JavaScript UTF-16 unit (identical on the BMP characters the
code manipulates).
-/

/-- JavaScript whitespace skipping (prefix of a char list). -/
def skipWs (cs : List Char) : List Char := cs.dropWhile Char.isWhitespace

/-- Model of JavaScript `String.prototype.trim`. -/
def jsTrim (s : String) : String :=
  ⟨((s.data.dropWhile Char.isWhitespace).reverse.dropWhile Char.isWhitespace).reverse⟩

/-- Model of `s.endsWith('#')`. -/
def strEndsWithHash (s : String) : Bool := s.data.getLast? = some '#'

/-- Model of `s.startsWith('#')`. -/
def strStartsWithHash (s : String) : Bool := s.data.head? = some '#'

/-- Model of `s.slice(0, -1)` (drop the final character). -/
def dropLast1 (s : String) : String := ⟨s.data.dropLast⟩

/-- Model of `s.slice(1)` (drop the first character). -/
def drop1 (s : String) : String := ⟨s.data.drop 1⟩

/-- Model of the JavaScript idiom `x || d` on an optional string:
`undefined` and the empty string are falsy and replaced by the default. -/
def jsOrDefault (o : Option String) (d : String) : String :=
  match o with
  | none => d
  | some s => if s = "" then d else s

/-- Value of a list of decimal digits, most significant first. -/
def digitsToNat (ds : List Char) : Nat :=
  ds.foldl (fun a c => a * 10 + (c.toNat - 48)) 0

/-- Decimal-digit run at the front of `cs`; `none` models a `NaN` result
(no digits to parse). -/
def parseIntCore (cs : List Char) (neg : Bool) : Option Int :=
  let ds := cs.takeWhile Char.isDigit
  if ds.isEmpty then none
  else if neg then some (-(digitsToNat ds : Int)) else some ((digitsToNat ds : Int))

/-- Model of JavaScript `parseInt(s, 10)`: skip whitespace, optional sign,
longest run of decimal digits; `none` models `NaN`. -/
def parseIntJS10 (s : String) : Option Int :=
  match skipWs s.data with
  | '-' :: rest => parseIntCore rest true
  | '+' :: rest => parseIntCore rest false
  | cs => parseIntCore cs false

/-- Hexadecimal digit test, for `parseInt` without an explicit radix. -/
def isHexDigit (c : Char) : Bool :=
  c.isDigit || (decide ('a' ≤ c) && decide (c ≤ 'f')) || (decide ('A' ≤ c) && decide (c ≤ 'F'))

/-- Numeric value of one hexadecimal digit. -/
def hexDigitToNat (c : Char) : Nat :=
  if c.isDigit then c.toNat - 48
  else if 'a' ≤ c ∧ c ≤ 'f' then c.toNat - 87
  else c.toNat - 55

/-- Value of a list of hexadecimal digits, most significant first. -/
def hexToNat (ds : List Char) : Nat :=
  ds.foldl (fun a c => a * 16 + hexDigitToNat c) 0

/-- Hexadecimal-digit run at the front of `cs`; `none` models `NaN`. -/
def parseHexCore (cs : List Char) (neg : Bool) : Option Int :=
  let ds := cs.takeWhile isHexDigit
  if ds.isEmpty then none
  else if neg then some (-(hexToNat ds : Int)) else some ((hexToNat ds : Int))

/-- Radix dispatch of `parseInt` without an explicit radix argument:
a `0x`/`0X` prefix switches to base 16, anything else is base 10. -/
def parseIntCoreAuto (cs : List Char) (neg : Bool) : Option Int :=
  match cs with
  | '0' :: 'x' :: rest => parseHexCore rest neg
  | '0' :: 'X' :: rest => parseHexCore rest neg
  | _ => parseIntCore cs neg

/-- Model of JavaScript `parseInt(s)` with no radix argument (used for the
two team-score header cells). -/
def parseIntJSAuto (s : String) : Option Int :=
  match skipWs s.data with
  | '-' :: rest => parseIntCoreAuto rest true
  | '+' :: rest => parseIntCoreAuto rest false
  | cs => parseIntCoreAuto cs false

/-- Abstraction of a JavaScript number as produced by `parseFloat`:
`NaN`, a signed infinity, or an exact rational (float rounding is
abstracted away; no claim compares float values beyond the 0 default). -/
inductive JsNum where
  | nan : JsNum
  | inf : Bool → JsNum
  | val : ℚ → JsNum
  deriving DecidableEq

/-- Exact value of a parsed decimal literal `ip . fp e ex`. -/
def floatValOf (neg : Bool) (ip fp : List Char) (ex : Int) : ℚ :=
  let mag : ℚ := (digitsToNat (ip ++ fp) : ℚ) * (10 : ℚ) ^ (ex - fp.length)
  if neg then -mag else mag

/-- Exponent digits of a float literal; an invalid exponent part
contributes nothing (JavaScript keeps the longest valid literal prefix). -/
def expDigits (cs : List Char) (neg : Bool) : Int :=
  let ds := cs.takeWhile Char.isDigit
  if ds.isEmpty then 0
  else if neg then -(digitsToNat ds : Int) else (digitsToNat ds : Int)

/-- Signed exponent digits after the `e`/`E` marker. -/
def parseExpSigned : List Char → Int
  | '-' :: cs => expDigits cs true
  | '+' :: cs => expDigits cs false
  | cs => expDigits cs false

/-- Exponent part of a float literal, `0` when absent or invalid. -/
def parseExp : List Char → Int
  | 'e' :: cs => parseExpSigned cs
  | 'E' :: cs => parseExpSigned cs
  | _ => 0

/-- Unsigned part of JavaScript `parseFloat`: `Infinity`, or decimal
digits with an optional fraction and exponent; `nan` when no prefix of
`cs` is a valid literal. -/
def parseFloatCore (cs : List Char) (neg : Bool) : JsNum :=
  if cs.take 8 = "Infinity".data then JsNum.inf neg
  else
    let ip := cs.takeWhile Char.isDigit
    let rest1 := cs.dropWhile Char.isDigit
    match rest1 with
    | '.' :: r2 =>
      let fp := r2.takeWhile Char.isDigit
      if ip.isEmpty && fp.isEmpty then JsNum.nan
      else JsNum.val (floatValOf neg ip fp (parseExp (r2.dropWhile Char.isDigit)))
    | _ =>
      if ip.isEmpty then JsNum.nan
      else JsNum.val (floatValOf neg ip [] (parseExp rest1))

/-- Model of JavaScript `parseFloat(s)`. -/
def parseFloatJS (s : String) : JsNum :=
  match skipWs s.data with
  | '-' :: rest => parseFloatCore rest true
  | '+' :: rest => parseFloatCore rest false
  | cs => parseFloatCore cs false

/-- Model of the JavaScript idiom `x || 0` on a number: `NaN` and zero are
falsy and replaced by `0` (zero is replaced by itself). -/
def jsOr0 : JsNum → JsNum
  | JsNum.nan => JsNum.val 0
  | x => x

/-- Model of `val.replace(/[+,%]/g, "")`: delete every plus sign, comma
and percent sign. -/
def stripPCP (s : String) : String :=
  ⟨s.data.filter (fun c => !(c == '+' || c == ',' || c == '%'))⟩

/-- Value of `parseInt(val.replace(/[+,%]/g, ""), 10) || 0` on a string. -/
def intVal (s : String) : Int := (parseIntJS10 (stripPCP s)).getD 0

/-- Value of `parseFloat(val.replace(/[+,%]/g, "")) || 0` on a string. -/
def floatVal (s : String) : JsNum := jsOr0 (parseFloatJS (stripPCP s))

/-- The only JavaScript error the modelled code can raise: calling
`.replace` on `undefined` (an absent table cell) is a `TypeError`, which
rejects the whole `page.evaluate` promise. -/
inductive JsError where
  | typeError : JsError
  deriving DecidableEq

/-- Source `toInt`: `val => parseInt(val.replace(/[+,%]/g, ""), 10) || 0`.
Applying it to `undefined` (an out-of-range `cells[k]`) throws. -/
def toInt : Option String → Except JsError Int
  | none => Except.error JsError.typeError
  | some s => Except.ok (intVal s)

/-- Source `toFloat`: `val => parseFloat(val.replace(/[+,%]/g, "")) || 0`.
Applying it to `undefined` throws. -/
def toFloat : Option String → Except JsError JsNum
  | none => Except.error JsError.typeError
  | some s => Except.ok (floatVal s)

/-- One `.st-content__item` scoreboard row of the DOM snapshot: the
`textContent` of the username and discriminator elements (`none` when the
selector matches nothing), the `alt` attributes of the agent and rank
images (`none` when no image matches), and the `textContent` of the
`.st-content__item-value` cells in document order. -/
structure RawRow where
  nameText : Option String
  tagText : Option String
  agentAlt : Option String
  tierAlt : Option String
  cells : List String
  deriving DecidableEq

/-- One emitted player record (the object literal built per surviving row). -/
structure Player where
  ofFields ::
  name : String
  agent : String
  team : String
  tier : String
  score : Int
  kills : Int
  deaths : Int
  assists : Int
  plus_minus : String
  kd_ratio : JsNum
  dda : String
  adr : JsNum
  hs_pct : JsNum
  kast_pct : String
  fk : Int
  fd : Int
  mk : Int
  deriving DecidableEq

/-- The DOM snapshot consumed by the `page.evaluate` body: header label and
value texts, the `textContent` of the two team-colored score elements
(`none` when the selector matches nothing), and the scoreboard rows. -/
structure Document where
  headerLabels : List String
  headerValues : List String
  team1ScoreText : Option String
  team2ScoreText : Option String
  rows : List RawRow
  deriving DecidableEq

/-- The emitted match object. -/
structure MatchResult where
  map : String
  mode : String
  team1_score : Int
  team2_score : Int
  round_count : Int
  won : Bool
  players : List Player
  deriving DecidableEq

/-- Source `knownMaps`. -/
def knownMaps : List String :=
  ["Ascent", "Bind", "Breeze", "Fracture", "Haven", "Icebox", "Lotus",
   "Pearl", "Split", "Sunset", "Deadlock", "Abyss"]

/-- Source map normalization: `knownMaps.includes(mapText) ? mapText : "Unknown"`. -/
def mapOf (mapText : String) : String :=
  if knownMaps.contains mapText then mapText else "Unknown"

/-- Source `rawName`: `nameElement?.textContent.trim() || ""`. -/
def rawNameOf (r : RawRow) : String := (r.nameText.map jsTrim).getD ""

/-- Source `rawTag`: `tagElement?.textContent.trim() || ""`. -/
def rawTagOf (r : RawRow) : String := (r.tagText.map jsTrim).getD ""

/-- Source row-rejection test: `if (!rawName || !rawTag) return null`. -/
def rowRejected (r : RawRow) : Bool :=
  decide (rawNameOf r = "" ∨ rawTagOf r = "")

/-- Source `cleanName`: `rawName.endsWith('#') ? rawName.slice(0, -1) : rawName`. -/
def cleanNameOf (r : RawRow) : String :=
  if strEndsWithHash (rawNameOf r) then dropLast1 (rawNameOf r) else rawNameOf r

/-- Source `cleanTag`: `rawTag.startsWith('#') ? rawTag.slice(1) : rawTag`. -/
def cleanTagOf (r : RawRow) : String :=
  if strStartsWithHash (rawTagOf r) then drop1 (rawTagOf r) else rawTagOf r

/-- Source `name`: the template literal `` `${cleanName}#${cleanTag}` ``. -/
def nameOf (r : RawRow) : String := cleanNameOf r ++ "#" ++ cleanTagOf r

/-- Source `agent`: `agentImg?.getAttribute("alt")?.trim() || "?"`. -/
def agentOf (r : RawRow) : String := jsOrDefault (r.agentAlt.map jsTrim) "?"

/-- Source `tier`: `rankImg?.getAttribute("alt") ?? "?"` (nullish
coalescing: an empty string passes through). -/
def tierOf (r : RawRow) : String := r.tierAlt.getD "?"

/-- Source `cells`: the trimmed `textContent` of the row's value cells. -/
def cellsOf (r : RawRow) : List String := r.cells.map jsTrim

/-- Source `team`: `index < 5 ? "Red" : "Blue"`, where `index` is the
row's position in the UNFILTERED `rows` array. -/
def teamOfIndex (index : Nat) : String := if index < 5 then "Red" else "Blue"

/-- The row callback of `rows.map((row, index) => ...)`: `null` (here
`none`) for a rejected row, the player object for a surviving one, and a
thrown `TypeError` when a required numeric cell is absent (the first
absent cell among indices 2,3,4,5,7,9,10,12,13,14 throws; since the model
has a single error value, one catch-all arm is observably equivalent). -/
def playerOfRow (index : Nat) (row : RawRow) : Except JsError (Option Player) :=
  if rowRejected row then Except.ok none
  else
    match toInt ((cellsOf row).get? 2), toInt ((cellsOf row).get? 3),
          toInt ((cellsOf row).get? 4), toInt ((cellsOf row).get? 5),
          toFloat ((cellsOf row).get? 7), toFloat ((cellsOf row).get? 9),
          toFloat ((cellsOf row).get? 10), toInt ((cellsOf row).get? 12),
          toInt ((cellsOf row).get? 13), toInt ((cellsOf row).get? 14) with
    | Except.ok score, Except.ok kills, Except.ok deaths, Except.ok assists,
      Except.ok kd, Except.ok adr, Except.ok hs, Except.ok fk,
      Except.ok fd, Except.ok mk =>
      Except.ok (some
        { name := nameOf row
          agent := agentOf row
          team := teamOfIndex index
          tier := tierOf row
          score := score
          kills := kills
          deaths := deaths
          assists := assists
          plus_minus := jsOrDefault ((cellsOf row).get? 6) "?"
          kd_ratio := kd
          dda := jsOrDefault ((cellsOf row).get? 8) "?"
          adr := adr
          hs_pct := hs
          kast_pct := jsOrDefault ((cellsOf row).get? 11) "?"
          fk := fk
          fd := fd
          mk := mk })
    | _, _, _, _, _, _, _, _, _, _ => Except.error JsError.typeError

/-- The `rows.map((row, index) => ...)` loop, threading the raw index;
the first thrown `TypeError` aborts the whole evaluation. -/
def mapRows (index : Nat) : List RawRow → Except JsError (List (Option Player))
  | [] => Except.ok []
  | r :: rs =>
    match playerOfRow index r, mapRows (index + 1) rs with
    | Except.ok p, Except.ok ps => Except.ok (p :: ps)
    | _, _ => Except.error JsError.typeError

/-- Source `players`: the mapped rows with `.filter(p => p !== null)`. -/
def extractPlayers (rows : List RawRow) : Except JsError (List Player) :=
  match mapRows 0 rows with
  | Except.error e => Except.error e
  | Except.ok opts => Except.ok (opts.filterMap id)

/-- Source `user_team`: `players.find(p => p.name === targetRiotID)?.team || "Unknown"`. -/
def userTeamOf (players : List Player) (target : String) : String :=
  jsOrDefault ((players.find? (fun p => p.name == target)).map Player.team) "Unknown"

/-- Source `won` computation from the player list, target identity and the
two team scores. -/
def wonOf (players : List Player) (target : String) (redScore blueScore : Int) : Bool :=
  let user_team := userTeamOf players target
  if user_team = "Red" then decide (redScore > blueScore)
  else if user_team = "Blue" then decide (blueScore > redScore)
  else false

/-- The whole `page.evaluate` body: metadata extraction, the player rows,
the two header team scores (`parseInt(...?.textContent.trim()) || 0`;
`parseInt(undefined)` is `NaN`, so an absent element yields `0` without
throwing), the derived round count and the outcome flag. -/
def scrape (doc : Document) (targetRiotID : String) : Except JsError MatchResult :=
  let labels := doc.headerLabels.map jsTrim
  let values := doc.headerValues.map jsTrim
  let mode := jsOrDefault (labels.get? 0) ""
  let mapText := jsOrDefault (values.get? 0) ""
  match extractPlayers doc.rows with
  | Except.error e => Except.error e
  | Except.ok players =>
    let redScore := match doc.team1ScoreText with
      | none => 0
      | some t => (parseIntJSAuto (jsTrim t)).getD 0
    let blueScore := match doc.team2ScoreText with
      | none => 0
      | some t => (parseIntJSAuto (jsTrim t)).getD 0
    Except.ok
      { map := mapOf mapText
        mode := mode
        team1_score := redScore
        team2_score := blueScore
        round_count := redScore + blueScore
        won := wonOf players targetRiotID redScore blueScore
        players := players }

/-- Team labels of the surviving rows, driven by the RAW row index (the
index of the row in the unfiltered sequence, which also advances over
rejected rows).  This is the comparison statement for the amended team
assignment claim: the emitted player sequence maps to exactly this list. -/
def teamsByRawIndex (index : Nat) : List RawRow → List String
  | [] => []
  | r :: rs =>
    if rowRejected r then teamsByRawIndex (index + 1) rs
    else teamOfIndex index :: teamsByRawIndex (index + 1) rs

/-- A stripped cell text whose first non-whitespace character is not a
minus sign (the condition under which the integer cell parsers cannot
produce a negative value). -/
def noMinus (s : String) : Bool :=
  decide ((skipWs s.data).head? ≠ some '-')

/-- Cell texts for a well-formed example row: positions 2-5 and 12-14 hold
decimal integers, the float cells hold non-numeric text (parsing to the 0
default), and the three opaque cells are passed through verbatim. -/
def stdCells : List String :=
  ["c0", "c1", "10", "5", "3", "2", "+1", "x", "d8", "x", "x", "k11", "1", "2", "0"]

/-- Example scoreboard row with the given name and tag texts and cells. -/
def mkRow (nm tg : String) (cs : List String) : RawRow :=
  { nameText := some nm, tagText := some tg, agentAlt := none, tierAlt := none, cells := cs }

/-- The player record `playerOfRow` produces for `mkRow nm tg stdCells`,
with the constructed identity and the team filled in by the caller. -/
def stdPlayer (nm tm : String) : Player :=
  { name := nm, agent := "?", team := tm, tier := "?", score := 10, kills := 5, deaths := 3,
    assists := 2, plus_minus := "+1", kd_ratio := JsNum.val 0, dda := "d8", adr := JsNum.val 0,
    hs_pct := JsNum.val 0, kast_pct := "k11", fk := 1, fd := 2, mk := 0 }

/-- Six raw rows, the first of which is rejected (empty name): the five
surviving rows sit at raw indices 1 to 5, so the last survivor is at raw
index 5 and receives the team of a raw index at least 5. -/
def rowsC1 : List RawRow :=
  [mkRow "" "x" stdCells, mkRow "A" "B" stdCells, mkRow "C" "D" stdCells,
   mkRow "E" "F" stdCells, mkRow "G" "H" stdCells, mkRow "I" "J" stdCells]

/-- The player list extracted from `rowsC1`. -/
def psC1 : List Player :=
  [stdPlayer "A#B" "Red", stdPlayer "C#D" "Red", stdPlayer "E#F" "Red",
   stdPlayer "G#H" "Red", stdPlayer "I#J" "Blue"]

/-- A document whose single row has a valid name and tag but NO stat value
cells, so `cells[2]` is `undefined` and `toInt` throws. -/
def docC2 : Document :=
  { headerLabels := ["Competitive"], headerValues := ["Ascent"],
    team1ScoreText := some "13", team2ScoreText := some "11",
    rows := [mkRow "A" "B" []] }

/-- Two raw rows, the first rejected (name trims to empty). -/
def rowsC4 : List RawRow :=
  [mkRow "" "T" stdCells, mkRow "A" "B" stdCells]

/-- Cell texts whose score cell (position 2) holds a negative integer. -/
def cellsC5 : List String :=
  ["c0", "c1", "-3", "5", "3", "2", "+1", "x", "d8", "x", "x", "k11", "1", "2", "0"]

/-- A document with an empty row list and both team-score header cells. -/
def docC8 : Document :=
  { headerLabels := ["Competitive"], headerValues := ["Ascent"],
    team1ScoreText := some "13", team2ScoreText := some "11", rows := [] }

/-- The match object emitted for `docC8`. -/
def resC8 : MatchResult :=
  { map := "Ascent", mode := "Competitive", team1_score := 13, team2_score := 11,
    round_count := 24, won := false, players := [] }

/-- A row whose raw name text is a lone `#` artifact. -/
def rowC9a : RawRow := mkRow "#" "Bar" stdCells

/-- A row whose raw tag text is a lone `#` artifact. -/
def rowC9b : RawRow := mkRow "Foo" "#" stdCells

/-- A row carrying the trailing-`#` name artifact and leading-`#` tag
artifact from the specification's identity-construction example. -/
def rowC7 : RawRow := mkRow "Foo#" "#Bar" stdCells

/-- Seven valid rows: raw indices 0 to 4 become Red, 5 and 6 become Blue. -/
def rowsC10 : List RawRow :=
  [mkRow "A" "B" stdCells, mkRow "C" "D" stdCells, mkRow "E" "F" stdCells,
   mkRow "G" "H" stdCells, mkRow "I" "J" stdCells, mkRow "K" "L" stdCells,
   mkRow "M" "N" stdCells]

/-- The player list extracted from `rowsC10`. -/
def psC10 : List Player :=
  [stdPlayer "A#B" "Red", stdPlayer "C#D" "Red", stdPlayer "E#F" "Red",
   stdPlayer "G#H" "Red", stdPlayer "I#J" "Red", stdPlayer "K#L" "Blue",
   stdPlayer "M#N" "Blue"]

/-- A row that fails the name/tag validation maps to `null` (no partial
record, no thrown error). -/
theorem playerOfRow_rejected (index : Nat) (r : RawRow) (h : rowRejected r = true) :
    playerOfRow index r = Except.ok none := by
  simp [playerOfRow, h]

/-- Only a rejected row can map to `null`. -/
theorem playerOfRow_none_inv {index : Nat} {r : RawRow}
    (h : playerOfRow index r = Except.ok none) : rowRejected r = true := by
  cases hb : rowRejected r with
  | true => rfl
  | false =>
    unfold playerOfRow at h
    rw [hb] at h
    simp only [Bool.false_eq_true, if_false] at h
    split at h <;> simp at h

/-- Inversion of a successfully emitted record: the row passed validation,
the identity and team fields are the source expressions, and each integer
stat field is `toInt` of a present cell. -/
theorem playerOfRow_some_inv {index : Nat} {r : RawRow} {p : Player}
    (h : playerOfRow index r = Except.ok (some p)) :
    rowRejected r = false ∧ p.name = nameOf r ∧ p.team = teamOfIndex index ∧
    (∃ s, (cellsOf r).get? 2 = some s ∧ p.score = intVal s) ∧
    (∃ s, (cellsOf r).get? 3 = some s ∧ p.kills = intVal s) ∧
    (∃ s, (cellsOf r).get? 4 = some s ∧ p.deaths = intVal s) ∧
    (∃ s, (cellsOf r).get? 5 = some s ∧ p.assists = intVal s) ∧
    (∃ s, (cellsOf r).get? 12 = some s ∧ p.fk = intVal s) ∧
    (∃ s, (cellsOf r).get? 13 = some s ∧ p.fd = intVal s) ∧
    (∃ s, (cellsOf r).get? 14 = some s ∧ p.mk = intVal s) := by
  unfold playerOfRow at h
  cases hb : rowRejected r with
  | true => rw [hb] at h; simp at h
  | false =>
    rw [hb] at h
    simp only [Bool.false_eq_true, if_false] at h
    cases h2 : (cellsOf r).get? 2 with
    | none => rw [h2] at h; simp [toInt] at h
    | some s2 =>
    cases h3 : (cellsOf r).get? 3 with
    | none => rw [h2, h3] at h; simp [toInt] at h
    | some s3 =>
    cases h4 : (cellsOf r).get? 4 with
    | none => rw [h2, h3, h4] at h; simp [toInt] at h
    | some s4 =>
    cases h5 : (cellsOf r).get? 5 with
    | none => rw [h2, h3, h4, h5] at h; simp [toInt] at h
    | some s5 =>
    cases h7 : (cellsOf r).get? 7 with
    | none => rw [h2, h3, h4, h5, h7] at h; simp [toInt, toFloat] at h
    | some s7 =>
    cases h9 : (cellsOf r).get? 9 with
    | none => rw [h2, h3, h4, h5, h7, h9] at h; simp [toInt, toFloat] at h
    | some s9 =>
    cases h10 : (cellsOf r).get? 10 with
    | none => rw [h2, h3, h4, h5, h7, h9, h10] at h; simp [toInt, toFloat] at h
    | some s10 =>
    cases h12 : (cellsOf r).get? 12 with
    | none => rw [h2, h3, h4, h5, h7, h9, h10, h12] at h; simp [toInt, toFloat] at h
    | some s12 =>
    cases h13 : (cellsOf r).get? 13 with
    | none => rw [h2, h3, h4, h5, h7, h9, h10, h12, h13] at h; simp [toInt, toFloat] at h
    | some s13 =>
    cases h14 : (cellsOf r).get? 14 with
    | none => rw [h2, h3, h4, h5, h7, h9, h10, h12, h13, h14] at h; simp [toInt, toFloat] at h
    | some s14 =>
      rw [h2, h3, h4, h5, h7, h9, h10, h12, h13, h14] at h
      simp only [toInt, toFloat, Except.ok.injEq, Option.some.injEq] at h
      subst h
      exact ⟨rfl, rfl, rfl, ⟨s2, rfl, rfl⟩, ⟨s3, rfl, rfl⟩, ⟨s4, rfl, rfl⟩,
        ⟨s5, rfl, rfl⟩, ⟨s12, rfl, rfl⟩, ⟨s13, rfl, rfl⟩, ⟨s14, rfl, rfl⟩⟩

/-- The surviving records of a successful row sweep carry exactly the team
labels dictated by the raw row indices. -/
theorem mapRows_teams (rows : List RawRow) :
    ∀ (index : Nat) (opts : List (Option Player)),
      mapRows index rows = Except.ok opts →
      (opts.filterMap id).map Player.team = teamsByRawIndex index rows := by
  induction rows with
  | nil =>
    intro index opts h
    simp only [mapRows, Except.ok.injEq] at h
    subst h
    rfl
  | cons r rs ih =>
    intro index opts h
    unfold mapRows at h
    cases hp : playerOfRow index r with
    | error e => rw [hp] at h; simp at h
    | ok o =>
      cases hm : mapRows (index + 1) rs with
      | error e => rw [hp, hm] at h; simp at h
      | ok ps =>
        rw [hp, hm] at h
        simp only [Except.ok.injEq] at h
        subst h
        cases o with
        | none =>
          have hrej := playerOfRow_none_inv hp
          simp only [teamsByRawIndex, hrej, if_true, List.filterMap_cons, id]
          exact ih (index + 1) ps hm
        | some p =>
          obtain ⟨hrej, -, hteam, -⟩ := playerOfRow_some_inv hp
          simp only [teamsByRawIndex, hrej, Bool.false_eq_true, if_false,
            List.filterMap_cons, id, List.map_cons]
          rw [hteam, ih (index + 1) ps hm]

/-- Every member of the surviving records of a successful row sweep was
emitted by `playerOfRow` for some row of the input. -/
theorem mapRows_mem (rows : List RawRow) :
    ∀ (index : Nat) (opts : List (Option Player)) (p : Player),
      mapRows index rows = Except.ok opts → p ∈ opts.filterMap id →
      ∃ (j : Nat) (r : RawRow), r ∈ rows ∧ playerOfRow j r = Except.ok (some p) := by
  induction rows with
  | nil =>
    intro index opts p h hp
    simp only [mapRows, Except.ok.injEq] at h
    subst h
    simp at hp
  | cons r rs ih =>
    intro index opts p h hp
    unfold mapRows at h
    cases hq : playerOfRow index r with
    | error e => rw [hq] at h; simp at h
    | ok o =>
      cases hm : mapRows (index + 1) rs with
      | error e => rw [hq, hm] at h; simp at h
      | ok ps =>
        rw [hq, hm] at h
        simp only [Except.ok.injEq] at h
        subst h
        cases o with
        | none =>
          simp only [List.filterMap_cons, id] at hp
          obtain ⟨j, r', hr', hpl⟩ := ih (index + 1) ps p hm hp
          exact ⟨j, r', List.mem_cons_of_mem r hr', hpl⟩
        | some q =>
          simp only [List.filterMap_cons, id, List.mem_cons] at hp
          cases hp with
          | inl hpq => exact ⟨index, r, List.mem_cons_self r rs, hpq ▸ hq⟩
          | inr hp' =>
            obtain ⟨j, r', hr', hpl⟩ := ih (index + 1) ps p hm hp'
            exact ⟨j, r', List.mem_cons_of_mem r hr', hpl⟩

/-- From raw index 5 on, every surviving row is labelled Blue. -/
theorem teamsByRawIndex_all_blue (rows : List RawRow) :
    ∀ index, 5 ≤ index →
      teamsByRawIndex index rows
        = List.replicate (teamsByRawIndex index rows).length "Blue" := by
  induction rows with
  | nil => intro index h5; rfl
  | cons r rs ih =>
    intro index h5
    cases hrej : rowRejected r with
    | true =>
      simp only [teamsByRawIndex, hrej, if_true]
      exact ih (index + 1) (by omega)
    | false =>
      simp only [teamsByRawIndex, hrej, Bool.false_eq_true, if_false, List.length_cons]
      rw [List.replicate_succ]
      have hblue : teamOfIndex index = "Blue" := by
        unfold teamOfIndex
        rw [if_neg (by omega)]
      rw [hblue, ← ih (index + 1) (by omega)]

/-- The raw-index team labels always form a block of Red followed by a
block of Blue. -/
theorem teamsByRawIndex_shape (rows : List RawRow) :
    ∀ index, ∃ k m, teamsByRawIndex index rows
      = List.replicate k "Red" ++ List.replicate m "Blue" := by
  induction rows with
  | nil => intro index; exact ⟨0, 0, rfl⟩
  | cons r rs ih =>
    intro index
    cases hrej : rowRejected r with
    | true =>
      simp only [teamsByRawIndex, hrej, if_true]
      exact ih (index + 1)
    | false =>
      simp only [teamsByRawIndex, hrej, Bool.false_eq_true, if_false]
      by_cases h5 : index < 5
      · obtain ⟨k, m, hkm⟩ := ih (index + 1)
        refine ⟨k + 1, m, ?_⟩
        rw [hkm]
        have hred : teamOfIndex index = "Red" := by
          unfold teamOfIndex
          rw [if_pos h5]
        rw [hred, List.replicate_succ]
        rfl
      · refine ⟨0, (teamsByRawIndex (index + 1) rs).length + 1, ?_⟩
        have hblue : teamOfIndex index = "Blue" := by
          unfold teamOfIndex
          rw [if_neg h5]
        rw [hblue, teamsByRawIndex_all_blue rs (index + 1) (by omega),
          List.replicate_succ]
        simp

/-- Each surviving row contributes one team label; each rejected row
contributes none. -/
theorem teamsByRawIndex_length (rows : List RawRow) :
    ∀ index, (teamsByRawIndex index rows).length + (rows.filter rowRejected).length
      = rows.length := by
  induction rows with
  | nil => intro index; rfl
  | cons r rs ih =>
    intro index
    cases hrej : rowRejected r with
    | true =>
      simp only [teamsByRawIndex, hrej, if_true, List.filter_cons, List.length_cons]
      have := ih (index + 1)
      omega
    | false =>
      simp only [teamsByRawIndex, hrej, Bool.false_eq_true, if_false, List.filter_cons,
        List.length_cons]
      have := ih (index + 1)
      omega

/-- Appending the empty string on the right is the identity. -/
theorem string_append_empty (s : String) : s ++ "" = s := by
  cases s with
  | mk data =>
    show String.mk (data ++ []) = String.mk data
    rw [List.append_nil]

/-- Parsing an unsigned digit run never yields a negative value. -/
theorem parseIntCore_false_nonneg (cs : List Char) :
    0 ≤ (parseIntCore cs false).getD 0 := by
  simp only [parseIntCore, Bool.false_eq_true, if_false]
  split
  · simp
  · simp

/-- If the stripped text does not lead with a minus sign, the integer cell
parser yields a non-negative value. -/
theorem intVal_nonneg (s : String) (h : noMinus (stripPCP s) = true) : 0 ≤ intVal s := by
  unfold noMinus at h
  unfold intVal parseIntJS10
  split
  next rest hsk =>
    rw [hsk] at h
    simp at h
  next rest hsk => exact parseIntCore_false_nonneg rest
  next cs hsk1 hsk2 => exact parseIntCore_false_nonneg _

/-- First-match characterization of the player lookup: the record found by
name is the one at the least index whose name equals the target. -/
theorem find?_first_match (target : String) (players : List Player) (p : Player) :
    players.find? (fun q => q.name == target) = some p ↔
      ∃ i, players.get? i = some p ∧ p.name = target ∧
        ∀ j q, j < i → players.get? j = some q → q.name ≠ target := by
  induction players with
  | nil => simp
  | cons a l ih =>
    by_cases ha : a.name = target
    · rw [List.find?_cons_of_pos _ (by simp [ha])]
      constructor
      · intro h
        injection h with h
        subst h
        exact ⟨0, rfl, ha, fun j q hj _ => absurd hj (Nat.not_lt_zero j)⟩
      · rintro ⟨i, hget, hname, hmin⟩
        cases i with
        | zero =>
          injection hget with hget
          rw [hget]
        | succ i => exact absurd ha (hmin 0 a (Nat.succ_pos i) rfl)
    · rw [List.find?_cons_of_neg _ (by simp [ha])]
      rw [ih]
      constructor
      · rintro ⟨i, hget, hname, hmin⟩
        refine ⟨i + 1, hget, hname, ?_⟩
        intro j q hj hq
        cases j with
        | zero =>
          injection hq with hq
          rw [hq] at ha
          exact ha
        | succ j => exact hmin j q (by omega) hq
      · rintro ⟨i, hget, hname, hmin⟩
        cases i with
        | zero =>
          injection hget with hget
          rw [← hget] at hname
          exact absurd hname ha
        | succ i =>
          refine ⟨i, hget, hname, ?_⟩
          intro j q hj hq
          exact hmin (j + 1) q (by omega) hq

/-- Branch analysis of the outcome conditional for an arbitrary found
team label. -/
theorem won_branch (t : String) (red blue : Int) :
    ((if (if t = "" then "Unknown" else t) = "Red" then decide (red > blue)
      else if (if t = "" then "Unknown" else t) = "Blue" then decide (blue > red)
      else false) = true) ↔
      ((t = "Red" ∧ red > blue) ∨ (t = "Blue" ∧ blue > red)) := by
  by_cases h0 : t = ""
  · subst h0; simp
  · by_cases hR : t = "Red"
    · subst hR; simp
    · by_cases hB : t = "Blue"
      · subst hB; simp
      · simp [h0, hR, hB]

/-- The outcome flag is true exactly when the looked-up record sits on the
team whose score is strictly larger. -/
theorem wonOf_true_iff (players : List Player) (target : String) (red blue : Int) :
    wonOf players target red blue = true ↔
      ∃ p, players.find? (fun q => q.name == target) = some p ∧
        ((p.team = "Red" ∧ red > blue) ∨ (p.team = "Blue" ∧ blue > red)) := by
  unfold wonOf userTeamOf
  cases hf : players.find? (fun q => q.name == target) with
  | none => simp [jsOrDefault]
  | some p =>
    simp only [Option.map_some', jsOrDefault, Option.some.injEq]
    rw [won_branch p.team red blue]
    constructor
    · intro h
      exact ⟨p, rfl, h⟩
    · rintro ⟨q, rfl, hq⟩
      exact hq

/-- Position lookup in a Red block followed by a Blue block. -/
theorem red_blue_block_get? (k m i : Nat) (x : String)
    (h : (List.replicate k "Red" ++ List.replicate m "Blue").get? i = some x) :
    (x = "Red" ∧ i < k) ∨ (x = "Blue" ∧ k ≤ i) := by
  by_cases hik : i < k
  · left
    rw [List.get?_append (by simpa using hik)] at h
    simp [List.getElem?_replicate, hik] at h
    exact ⟨h.symm, hik⟩
  · right
    rw [List.get?_append_right (by simpa using Nat.le_of_not_lt hik)] at h
    simp [List.getElem?_replicate] at h
    exact ⟨h.2.symm, Nat.le_of_not_lt hik⟩

/-- C1 counterexample: with six raw rows whose first row is rejected, the
extraction emits five surviving records whose teams are four Red and then
one Blue, so the fifth surviving record is Blue, not Red as the
positional-in-filtered-sequence claim requires. -/
theorem C1_filtered_position_counterexample :
    rowsC1.length = 6 ∧ (rowsC1.filter rowRejected).length = 1 ∧
    (extractPlayers rowsC1).map (fun ps => ps.map Player.team)
      = Except.ok ["Red", "Red", "Red", "Red", "Blue"] :=
  ⟨rfl, rfl, rfl⟩

/-- C1 (amended): each surviving record's team is decided by the RAW index
of its row in the unfiltered row sequence (rejected rows still advance the
index): raw index below 5 gives Red, raw index at least 5 gives Blue. -/
theorem C1_team_by_raw_index (rows : List RawRow) (ps : List Player)
    (h : extractPlayers rows = Except.ok ps) :
    ps.map Player.team = teamsByRawIndex 0 rows := by
  unfold extractPlayers at h
  split at h
  next e heq => cases h
  next opts heq =>
    injection h with h
    subst h
    exact mapRows_teams rows 0 opts heq

/-- C1 witness: the amended statement evaluated on the six-row example. -/
theorem C1_team_by_raw_index_witness :
    psC1.map Player.team = teamsByRawIndex 0 rowsC1 :=
  C1_team_by_raw_index rowsC1 psC1 rfl

/-- C2 counterexample: a row with a valid name and tag but an empty stat
cell list makes `toInt(cells[2])` throw a `TypeError` (`undefined` has no
`replace`), aborting the whole extraction instead of defaulting to 0. -/
theorem C2_absent_cell_counterexample :
    scrape docC2 "A#B" = Except.error JsError.typeError := rfl

/-- C2 (amended): for a PRESENT stat cell the integer and float parsers
always succeed, and a cell whose stripped text has no parsable numeric
prefix yields the 0 default; an ABSENT cell, however, makes both parsers
throw a `TypeError`, which aborts the extraction. -/
theorem C2_cell_parse_total (s : String) :
    toInt (some s) = Except.ok (intVal s) ∧
    toFloat (some s) = Except.ok (floatVal s) ∧
    (parseIntJS10 (stripPCP s) = none → toInt (some s) = Except.ok 0) ∧
    (parseFloatJS (stripPCP s) = JsNum.nan → toFloat (some s) = Except.ok (JsNum.val 0)) ∧
    toInt none = Except.error JsError.typeError ∧
    toFloat none = Except.error JsError.typeError := by
  refine ⟨rfl, rfl, ?_, ?_, rfl, rfl⟩
  · intro h
    simp [toInt, intVal, h]
  · intro h
    simp [toFloat, floatVal, h, jsOr0]

/-- C2 witness: the non-numeric cell text from the specification parses to
the 0 defaults without an error. -/
theorem C2_cell_parse_total_witness :
    toInt (some "N/A") = Except.ok 0 ∧ toFloat (some "N/A") = Except.ok (JsNum.val 0) :=
  ⟨(C2_cell_parse_total "N/A").2.2.1 (by decide),
   (C2_cell_parse_total "N/A").2.2.2.1 (by decide)⟩

/-- C3 counterexample: with two records named X, the first on Red and the
second on Blue, and scores 7 to 13, some matching record (the Blue one) is
on the strictly winning team, yet `won` is false because the lookup takes
the FIRST match (the Red one, whose team is losing). -/
theorem C3_some_match_counterexample :
    wonOf [stdPlayer "X" "Red", stdPlayer "X" "Blue"] "X" 7 13 = false ∧
    ∃ p ∈ [stdPlayer "X" "Red", stdPlayer "X" "Blue"],
      p.name = "X" ∧
      ((p.team = "Red" ∧ (7 : Int) > 13) ∨ (p.team = "Blue" ∧ (13 : Int) > 7)) := by
  constructor
  · rfl
  · refine ⟨stdPlayer "X" "Blue", ?_, rfl, Or.inr ⟨rfl, by norm_num⟩⟩
    exact List.mem_cons_of_mem _ (List.mem_cons_self _ _)

/-- C3 (amended): `won` is true exactly when the FIRST record (least
index) whose name equals the target sits on the team with the strictly
larger score; with no matching record, or with equal scores, `won` is
false and no error is raised. -/
theorem C3_won_first_match (players : List Player) (target : String) (red blue : Int) :
    (wonOf players target red blue = true ↔
      ∃ i p, players.get? i = some p ∧ p.name = target ∧
        (∀ j q, j < i → players.get? j = some q → q.name ≠ target) ∧
        ((p.team = "Red" ∧ red > blue) ∨ (p.team = "Blue" ∧ blue > red))) ∧
    ((∀ p ∈ players, p.name ≠ target) → wonOf players target red blue = false) ∧
    (red = blue → wonOf players target red blue = false) := by
  refine ⟨?_, ?_, ?_⟩
  · rw [wonOf_true_iff]
    constructor
    · rintro ⟨p, hfind, hD⟩
      obtain ⟨i, hget, hname, hmin⟩ := (find?_first_match target players p).mp hfind
      exact ⟨i, p, hget, hname, hmin, hD⟩
    · rintro ⟨i, p, hget, hname, hmin, hD⟩
      exact ⟨p, (find?_first_match target players p).mpr ⟨i, hget, hname, hmin⟩, hD⟩
  · intro hnone
    have hf : players.find? (fun q => q.name == target) = none := by
      rw [List.find?_eq_none]
      intro q hq
      simpa using hnone q hq
    unfold wonOf userTeamOf
    rw [hf]
    rfl
  · intro heq
    subst heq
    cases hwon : wonOf players target red red with
    | false => rfl
    | true =>
      obtain ⟨p, -, hD⟩ := (wonOf_true_iff players target red red).mp hwon
      rcases hD with ⟨-, hgt⟩ | ⟨-, hgt⟩ <;> exact absurd hgt (lt_irrefl red)

/-- C3 witness: an unmatched target and a tied score both yield false. -/
theorem C3_won_first_match_witness :
    wonOf [stdPlayer "A#B" "Red"] "Z" 13 7 = false ∧ wonOf [] "X" 13 13 = false :=
  ⟨(C3_won_first_match [stdPlayer "A#B" "Red"] "Z" 13 7).2.1 (by decide),
   (C3_won_first_match [] "X" 13 13).2.2 rfl⟩

/-- C4: rows whose trimmed name or tag is empty are exactly the rows that
map to `null` and are filtered away, so the emitted sequence is shorter
than the row sequence by exactly their number, and no partial record is
ever emitted for them. -/
theorem C4_row_rejection (rows : List RawRow) (ps : List Player)
    (h : extractPlayers rows = Except.ok ps) :
    ps.length + (rows.filter rowRejected).length = rows.length ∧
    ∀ (index : Nat) (r : RawRow), rowRejected r = true →
      playerOfRow index r = Except.ok none := by
  constructor
  · unfold extractPlayers at h
    split at h
    next e heq => cases h
    next opts heq =>
      injection h with h
      subst h
      have hlen := teamsByRawIndex_length rows 0
      have hteams := congrArg List.length (mapRows_teams rows 0 opts heq)
      simp only [List.length_map] at hteams
      omega
  · intro index r hrej
    simp [playerOfRow, hrej]

/-- C4 witness: a two-row example with one rejected row. -/
theorem C4_row_rejection_witness :
    ([stdPlayer "A#B" "Red"] : List Player).length
      + (rowsC4.filter rowRejected).length = rowsC4.length :=
  (C4_row_rejection rowsC4 [stdPlayer "A#B" "Red"] rfl).1

/-- C5 counterexample: a score cell containing a negative number is parsed
to a negative integer in the emitted record, contradicting the claimed
non-negativity of the parsed stat fields. -/
theorem C5_negative_counterexample :
    (extractPlayers [mkRow "N" "T" cellsC5]).map (fun ps => ps.map Player.score)
      = Except.ok [-3] := rfl

/-- C5 (amended): the seven integer stat fields are integers with 0 as the
parse-failure default; they are non-negative provided no stripped stat
cell of the source rows leads with a minus sign. -/
theorem C5_int_fields_nonneg (rows : List RawRow) (ps : List Player)
    (h : extractPlayers rows = Except.ok ps)
    (hnm : ∀ r ∈ rows, ∀ c ∈ cellsOf r, noMinus (stripPCP c) = true)
    (p : Player) (hp : p ∈ ps) :
    0 ≤ p.score ∧ 0 ≤ p.kills ∧ 0 ≤ p.deaths ∧ 0 ≤ p.assists ∧
    0 ≤ p.fk ∧ 0 ≤ p.fd ∧ 0 ≤ p.mk := by
  unfold extractPlayers at h
  split at h
  next e heq => cases h
  next opts heq =>
    injection h with h
    subst h
    obtain ⟨j, r, hr, hpl⟩ := mapRows_mem rows 0 opts p heq hp
    obtain ⟨-, -, -, ⟨s2, hs2, e2⟩, ⟨s3, hs3, e3⟩, ⟨s4, hs4, e4⟩, ⟨s5, hs5, e5⟩,
      ⟨s12, hs12, e12⟩, ⟨s13, hs13, e13⟩, ⟨s14, hs14, e14⟩⟩ := playerOfRow_some_inv hpl
    have hcell := hnm r hr
    refine ⟨?_, ?_, ?_, ?_, ?_, ?_, ?_⟩
    · rw [e2]; exact intVal_nonneg s2 (hcell s2 (List.get?_mem hs2))
    · rw [e3]; exact intVal_nonneg s3 (hcell s3 (List.get?_mem hs3))
    · rw [e4]; exact intVal_nonneg s4 (hcell s4 (List.get?_mem hs4))
    · rw [e5]; exact intVal_nonneg s5 (hcell s5 (List.get?_mem hs5))
    · rw [e12]; exact intVal_nonneg s12 (hcell s12 (List.get?_mem hs12))
    · rw [e13]; exact intVal_nonneg s13 (hcell s13 (List.get?_mem hs13))
    · rw [e14]; exact intVal_nonneg s14 (hcell s14 (List.get?_mem hs14))

/-- C5 witness: the amended statement evaluated on a well-formed row. -/
theorem C5_int_fields_nonneg_witness :
    0 ≤ (stdPlayer "A#B" "Red").score ∧ 0 ≤ (stdPlayer "A#B" "Red").kills ∧
    0 ≤ (stdPlayer "A#B" "Red").deaths ∧ 0 ≤ (stdPlayer "A#B" "Red").assists ∧
    0 ≤ (stdPlayer "A#B" "Red").fk ∧ 0 ≤ (stdPlayer "A#B" "Red").fd ∧
    0 ≤ (stdPlayer "A#B" "Red").mk :=
  C5_int_fields_nonneg [mkRow "A" "B" stdCells] [stdPlayer "A#B" "Red"] rfl
    (by decide) (stdPlayer "A#B" "Red") (List.mem_singleton.mpr rfl)

/-- C6: a candidate in the fixed known-map set is echoed verbatim; any
other candidate resolves to Unknown. -/
theorem C6_map_whitelist (s : String) :
    (s ∈ knownMaps → mapOf s = s) ∧ (s ∉ knownMaps → mapOf s = "Unknown") := by
  constructor
  · intro hs
    simp [mapOf, hs]
  · intro hs
    simp [mapOf, hs]

/-- C6 witness: a member candidate and a non-member candidate. -/
theorem C6_map_whitelist_witness :
    mapOf "Ascent" = "Ascent" ∧ mapOf "Pandora" = "Unknown" :=
  ⟨(C6_map_whitelist "Ascent").1 (by decide), (C6_map_whitelist "Pandora").2 (by decide)⟩

/-- C7: the emitted identity is the cleaned name and cleaned tag joined by
a single separator, where cleaning strips one trailing hash from the raw
name and one leading hash from the raw tag. -/
theorem C7_identity (index : Nat) (r : RawRow) (p : Player)
    (h : playerOfRow index r = Except.ok (some p)) :
    p.name = cleanNameOf r ++ "#" ++ cleanTagOf r ∧
    cleanNameOf r
      = (if strEndsWithHash (rawNameOf r) then dropLast1 (rawNameOf r) else rawNameOf r) ∧
    cleanTagOf r
      = (if strStartsWithHash (rawTagOf r) then drop1 (rawTagOf r) else rawTagOf r) :=
  ⟨(playerOfRow_some_inv h).2.1, rfl, rfl⟩

/-- C7 witness: raw name with a trailing hash and raw tag with a leading
hash produce exactly the single-hash identity from the specification. -/
theorem C7_identity_witness : (stdPlayer "Foo#Bar" "Red").name = "Foo#Bar" :=
  (C7_identity 0 rowC7 (stdPlayer "Foo#Bar" "Red") rfl).1

/-- C8: the emitted round count always equals the sum of the two parsed
team scores, by construction. -/
theorem C8_round_count (doc : Document) (target : String) (res : MatchResult)
    (h : scrape doc target = Except.ok res) :
    res.round_count = res.team1_score + res.team2_score := by
  unfold scrape at h
  split at h
  next e heq => cases h
  next players heq =>
    injection h with h
    subst h
    rfl

/-- C8 witness: a concrete document with header scores 13 and 11. -/
theorem C8_round_count_witness :
    resC8.round_count = resC8.team1_score + resC8.team2_score :=
  C8_round_count docC8 "A#B" resC8 rfl

/-- C9: the validity check runs on the raw trimmed fields before
hash-artifact stripping: a raw name (resp. raw tag) of exactly one hash is
not dropped, and the stripped identity then has an empty name (resp. tag)
component. -/
theorem C9_lone_hash (index : Nat) (r : RawRow) :
    (rawNameOf r = "#" → rawTagOf r ≠ "" →
      playerOfRow index r ≠ Except.ok none ∧
      ∀ p : Player, playerOfRow index r = Except.ok (some p) →
        p.name = "#" ++ cleanTagOf r) ∧
    (rawTagOf r = "#" → rawNameOf r ≠ "" →
      playerOfRow index r ≠ Except.ok none ∧
      ∀ p : Player, playerOfRow index r = Except.ok (some p) →
        p.name = cleanNameOf r ++ "#") := by
  constructor
  · intro hn ht
    constructor
    · intro habs
      have hrej := playerOfRow_none_inv habs
      simp [rowRejected, hn, ht] at hrej
    · intro p hp
      have hname := (playerOfRow_some_inv hp).2.1
      have hcn : cleanNameOf r = "" := by
        unfold cleanNameOf
        rw [hn]
        rfl
      rw [hname]
      unfold nameOf
      rw [hcn]
      rfl
  · intro ht hn
    constructor
    · intro habs
      have hrej := playerOfRow_none_inv habs
      simp [rowRejected, hn, ht] at hrej
    · intro p hp
      have hname := (playerOfRow_some_inv hp).2.1
      have hct : cleanTagOf r = "" := by
        unfold cleanTagOf
        rw [ht]
        rfl
      rw [hname]
      unfold nameOf
      rw [hct]
      exact string_append_empty _

/-- C9 witness: the lone-hash name row and lone-hash tag row evaluated. -/
theorem C9_lone_hash_witness :
    (stdPlayer "#Bar" "Red").name = "#Bar" ∧ (stdPlayer "Foo#" "Red").name = "Foo#" :=
  ⟨((C9_lone_hash 0 rowC9a).1 rfl (by decide)).2 (stdPlayer "#Bar" "Red") rfl,
   ((C9_lone_hash 0 rowC9b).2 rfl (by decide)).2 (stdPlayer "Foo#" "Red") rfl⟩

/-- C10: in every emitted player sequence, every Red record precedes every
Blue record: any record after a Blue record is itself Blue. -/
theorem C10_no_interleaving (rows : List RawRow) (ps : List Player)
    (h : extractPlayers rows = Except.ok ps)
    (i j : Nat) (p q : Player) (hij : i < j)
    (hp : ps.get? i = some p) (hq : ps.get? j = some q)
    (hblue : p.team = "Blue") : q.team = "Blue" := by
  have hteams : ps.map Player.team = teamsByRawIndex 0 rows := by
    unfold extractPlayers at h
    split at h
    next e heq => cases h
    next opts heq =>
      injection h with h
      subst h
      exact mapRows_teams rows 0 opts heq
  obtain ⟨k, m, hshape⟩ := teamsByRawIndex_shape rows 0
  rw [hshape] at hteams
  have hpt : (ps.map Player.team).get? i = some p.team := by
    rw [List.get?_map, hp]
    rfl
  have hqt : (ps.map Player.team).get? j = some q.team := by
    rw [List.get?_map, hq]
    rfl
  rw [hteams] at hpt hqt
  rcases red_blue_block_get? k m i p.team hpt with ⟨hpr, -⟩ | ⟨-, hpk⟩
  · simp [hblue] at hpr
  · rcases red_blue_block_get? k m j q.team hqt with ⟨-, hjk⟩ | ⟨hqb, -⟩
    · omega
    · exact hqb

/-- C10 witness: the seventh record of a seven-row example follows the
sixth, which is Blue, and is itself Blue. -/
theorem C10_no_interleaving_witness : (stdPlayer "M#N" "Blue").team = "Blue" :=
  C10_no_interleaving rowsC10 psC10 rfl 5 6 (stdPlayer "K#L" "Blue")
    (stdPlayer "M#N" "Blue") (by omega) rfl rfl rfl
